import Mathlib

/-!
Shallow embedding of `quiz_game.py`: a pygame quiz client whose game loop
fetches multiple-choice questions from a Flask HTTP API, lets the player move
a selection with up/down keys, and submits answers with enter.  Network
effects are modelled by passing the HTTP response (or an oracle for the
outcome of the two client calls) explicitly; pygame rendering calls carry no
game-state content and are modelled only where a claim mentions them (the
end-screen sequence).
-/

namespace QuizGame

/-- A JSON value, as produced by `response.json()`. -/
inductive JValue where
  | jnull : JValue
  | jbool : Bool → JValue
  | jnum : Int → JValue
  | jstr : String → JValue
  | jarr : List JValue → JValue
  | jobj : List (String × JValue) → JValue
deriving Repr

/-- Python `repr()` of a JSON-decoded value (strings quoted), matching
Python list/dict display of nested elements. -/
def jvalue_repr : JValue → String
  | .jnull => "None"
  | .jbool true => "True"
  | .jbool false => "False"
  | .jnum n => toString n
  | .jstr s => "'" ++ s ++ "'"
  | .jarr xs =>
      "[" ++ String.intercalate ", " (xs.attach.map (fun x => jvalue_repr x.1))
        ++ "]"
  | .jobj fs =>
      "\x7b" ++ String.intercalate ", "
        (fs.attach.map (fun kv => "'" ++ kv.1.1 ++ "': " ++ jvalue_repr kv.1.2))
        ++ "\x7d"
decreasing_by
  all_goals simp_wf
  · have h := List.sizeOf_lt_of_mem x.2
    omega
  · have h := List.sizeOf_lt_of_mem kv.2
    rcases kv with ⟨⟨k, v⟩, hkv⟩
    simp at h ⊢
    omega

/-- Python `str()` of a JSON-decoded value, as used by an f-string
(`f"Bad request: \x7bmessage\x7d"`). Scalars print bare; containers print in
`repr` form. -/
def jvalue_str : JValue → String
  | .jstr s => s
  | v => jvalue_repr v

/-- Python dict lookup `d[k]` on the field list of a JSON object:
first binding wins (JSON objects decode to dicts with unique keys). -/
def dict_get (fields : List (String × JValue)) (k : String) : Option JValue :=
  match fields with
  | [] => none
  | (k', v) :: rest => if k' = k then some v else dict_get rest k

/-- The typed view of `MultipleChoiceQuestion` (quiz_game.py lines 10-28), as
its annotations declare and as the game loop uses it: an id, the prompt text,
the correct-answer index and the ordered choice strings. -/
structure MultipleChoiceQuestion where
  question_id : String
  question_text : String
  answer_index : Int
  choices : List String
deriving Repr, DecidableEq

/-- The object actually produced by `MultipleChoiceQuestion(**response.json())`
(line 60): the constructor performs no validation, so each attribute holds
whatever JSON value the server supplied for that keyword. -/
structure DynQuestion where
  question_id : JValue
  question_text : JValue
  answer_index : JValue
  choices : JValue
deriving Repr

/-- Accumulator for binding keyword arguments to the four parameters of
`MultipleChoiceQuestion.__init__` (line 13). -/
structure BindAcc where
  qid : Option JValue
  qtext : Option JValue
  aidx : Option JValue
  chs : Option JValue
deriving Repr

/-- Bind one keyword argument: an unknown keyword or a rebinding of an
already-bound parameter is a Python `TypeError` (modelled as `none`). -/
def bind_one (acc? : Option BindAcc) (kv : String × JValue) : Option BindAcc :=
  match acc? with
  | none => none
  | some acc =>
    if kv.1 = "question_id" then
      match acc.qid with
      | none => some { acc with qid := some kv.2 }
      | some _ => none
    else if kv.1 = "question_text" then
      match acc.qtext with
      | none => some { acc with qtext := some kv.2 }
      | some _ => none
    else if kv.1 = "answer_index" then
      match acc.aidx with
      | none => some { acc with aidx := some kv.2 }
      | some _ => none
    else if kv.1 = "choices" then
      match acc.chs with
      | none => some { acc with chs := some kv.2 }
      | some _ => none
    else none

/-- Model of `MultipleChoiceQuestion(**m)` for a server-supplied mapping `m`:
Python binds each key to the parameter of the same name and fails with a
`TypeError` when a key matches no parameter or a required parameter is left
unbound.  No value is inspected: the constructor stores the four bound values
untouched (lines 22-25). -/
def mcq_from_mapping (m : List (String × JValue)) : Option DynQuestion :=
  match m.foldl bind_one (some ⟨none, none, none, none⟩) with
  | some ⟨some a, some b, some c, some d⟩ => some ⟨a, b, c, d⟩
  | _ => none

/-- Errors a client call can raise: the game's own exception class
(quiz_game.py line 52), or a Python-level error from touching the response
body (`KeyError` on a missing dict key, `TypeError` from constructor
argument binding). -/
inductive PyErr where
  | gameException : String → PyErr
  | typeError : PyErr
  | keyError : String → PyErr
deriving Repr, DecidableEq

/-- An HTTP response as the two client functions observe it: a status code
and a JSON-decoded body. -/
structure HttpResponse where
  status_code : Nat
  body : JValue

def API_BASE_URL : String := "http://127.0.0.1:5000/api"

/-- The generic connectivity-failure message (lines 64-65 and 77-78). -/
def unreachable_msg : String := "Something is wrong reaching the Flask quizzer API."

/-- Shared non-200 handling of both client calls (lines 61-65 and 74-78):
status 400 raises `GameException` with `"Bad request: "` followed by the
body's `message` field; every other status raises the generic message. -/
def error_branch (response : HttpResponse) : PyErr :=
  if response.status_code = 400 then
    match response.body with
    | .jobj fs =>
      match dict_get fs "message" with
      | some v => .gameException ("Bad request: " ++ jvalue_str v)
      | none => .keyError "message"
    | _ => .typeError
  else .gameException unreachable_msg

/-- Model of `fetch_random_question` (lines 56-65), with the network call modelled by
the `server` map from request URL to response: GET `/random-question`; on 200
construct a question from the body mapping; on 400 raise the body's message;
otherwise raise the generic failure. -/
def fetch_random_question (server : String → HttpResponse) :
    Except PyErr DynQuestion :=
  let response := server (API_BASE_URL ++ "/random-question")
  if response.status_code = 200 then
    match response.body with
    | .jobj fs =>
      match mcq_from_mapping fs with
      | some q => .ok q
      | none => .error .typeError
    | _ => .error .typeError
  else .error (error_branch response)

/-- The URL `check_answer` requests (lines 70-71): built from the question's
id and the selected option only. -/
def check_answer_url (question : MultipleChoiceQuestion) (selected_option : Int) :
    String :=
  API_BASE_URL ++ "/question/" ++ question.question_id ++ "/answer/"
    ++ toString selected_option

/-- Model of `check_answer` (lines 68-78): GET the answer-check URL; on 200 return the
body's `is_correct` field; on 400 raise the body's message; otherwise raise
the generic failure. -/
def check_answer (question : MultipleChoiceQuestion) (selected_option : Int)
    (server : String → HttpResponse) : Except PyErr JValue :=
  let response := server (check_answer_url question selected_option)
  if response.status_code = 200 then
    match response.body with
    | .jobj fs =>
      match dict_get fs "is_correct" with
      | some v => .ok v
      | none => .error (.keyError "is_correct")
    | _ => .error .typeError
  else .error (error_branch response)

/-! ## The game loop (quiz_game.py `main`, lines 100-145) -/

/-- The keys the event loop distinguishes (lines 119-127); `other` stands for
any key none of the branches match. -/
inductive GameKey where
  | k_q
  | k_down
  | k_up
  | k_return
  | other
deriving Repr, DecidableEq

/-- A pygame event as the loop reads it: window close (`pygame.QUIT`) or a
key press. -/
inductive GameEvent where
  | quit
  | keydown : GameKey → GameEvent
deriving Repr, DecidableEq

/-- The loop-local variables of `main` (lines 106-113). -/
structure LoopState where
  game_running : Bool
  score : Int
  selected_option : Int
  question : MultipleChoiceQuestion
deriving Repr, DecidableEq

/-- Outcome of the network calls an event handler may make: the truthiness of
`check_answer`'s result and the question `fetch_random_question` would return,
both only consulted on the enter-key branch (lines 127-130). -/
structure NetOracle where
  is_correct : Bool
  next_question : MultipleChoiceQuestion
deriving Repr, DecidableEq

/-- One iteration of the event dispatch (lines 115-130).  `pygame.QUIT` and
the `q` key clear `game_running`; down/up move the selection modulo the number
of choices (Python `%` on a positive modulus agrees with `Int.emod`); enter
checks the answer and, exactly when it is truthy, replaces the question and
resets the selection to 0. -/
def handle_event (s : LoopState) (e : GameEvent) (o : NetOracle) : LoopState :=
  match e with
  | .quit => { s with game_running := false }
  | .keydown k =>
    let s1 := if k = .k_q then { s with game_running := false } else s
    match k with
    | .k_down =>
        { s1 with selected_option :=
            (s1.selected_option + 1) % (s1.question.choices.length : Int) }
    | .k_up =>
        { s1 with selected_option :=
            (s1.selected_option - 1) % (s1.question.choices.length : Int) }
    | .k_return =>
        if o.is_correct then
          { s1 with question := o.next_question, selected_option := 0 }
        else s1
    | _ => s1

/-- Run the event dispatch over a sequence of events, each paired with the
oracle for the network calls it may trigger. -/
def run_events (s : LoopState) (es : List (GameEvent × NetOracle)) : LoopState :=
  es.foldl (fun st p => handle_event st p.1 p.2) s

/-- The loop state after the initialisation of `main` (lines 106-110):
`score = 0`, `selected_option = 0`, the first fetched question, and the loop
flag set (line 113). -/
def init_state (q0 : MultipleChoiceQuestion) : LoopState :=
  { game_running := true, score := 0, selected_option := 0, question := q0 }

/-- The fixed actions `main` performs once the loop exits (lines 134-145). -/
inductive EndAction where
  | draw_game_over
  | draw_score : Int → EndAction
  | display_flip
  | wait_ms : Nat → EndAction
  | pygame_quit
  | sys_exit
deriving Repr, DecidableEq

/-- The end-screen sequence (lines 134-145): draw "Game Over!" and the score,
flip the display, wait a fixed 3000 ms, shut pygame down and exit the
process. -/
def end_sequence (score : Int) : List EndAction :=
  [.draw_game_over, .draw_score score, .display_flip, .wait_ms 3000,
   .pygame_quit, .sys_exit]

/-- The bound `0 ≤ selected_option < len(question.choices)` the selection
must satisfy for rendering (line 93) and for the modular updates to be
well-defined. -/
def valid_selection (s : LoopState) : Prop :=
  0 ≤ s.selected_option ∧ s.selected_option < (s.question.choices.length : Int)

instance (s : LoopState) : Decidable (valid_selection s) := by
  unfold valid_selection; infer_instance

/-! ## Concrete values used by witnesses and counterexamples -/

/-- A concrete three-choice question. -/
def qA : MultipleChoiceQuestion :=
  { question_id := "11111111-aaaa-bbbb-cccc-000000000001"
    question_text := "What is 2+2?"
    answer_index := 1
    choices := ["3", "4", "5"] }

/-- A concrete two-choice question. -/
def qB : MultipleChoiceQuestion :=
  { question_id := "22222222-aaaa-bbbb-cccc-000000000002"
    question_text := "Capital of France?"
    answer_index := 0
    choices := ["Paris", "Rome"] }

/-- The loop state right after initialisation with `qA`. -/
def sA : LoopState := init_state qA

/-! ## Theorems -/

/-- Claim C1: in the running loop, processing the enter key consults
`check_answer`; exactly when it returns true the current question is replaced
by the freshly fetched one and `selected_option` is reset to 0, and no other
event (and no false result) ever changes the current question. -/
theorem enter_replaces_question_iff_correct (s : LoopState) (o : NetOracle) :
    (handle_event s (.keydown .k_return) o =
      if o.is_correct then
        { s with question := o.next_question, selected_option := 0 }
      else s) ∧
    (∀ e : GameEvent, (handle_event s e o).question ≠ s.question →
      e = .keydown .k_return ∧ o.is_correct = true) := by
  constructor
  · by_cases hc : o.is_correct <;> simp [handle_event, hc]
  · intro e he
    cases e with
    | quit => simp [handle_event] at he
    | keydown k =>
      cases k <;> by_cases hc : o.is_correct <;>
        simp [handle_event, hc] at he ⊢

/-- Witness for C1 at a concrete state: a correct answer replaces `qA` by
`qB` and resets the selection, and the question change implies the event was
enter with a true result. -/
theorem enter_replaces_question_iff_correct_witness :
    (handle_event sA (.keydown .k_return) ⟨true, qB⟩ =
      { sA with question := qB, selected_option := 0 }) ∧
    ((.keydown .k_return : GameEvent) = .keydown .k_return ∧
      (NetOracle.mk true qB).is_correct = true) := by
  have h := enter_replaces_question_iff_correct sA ⟨true, qB⟩
  exact ⟨h.1, h.2 (.keydown .k_return) (by decide)⟩

/-- Claim C3: processing the enter key when `check_answer` returns false
leaves the whole loop state unchanged: `selected_option`, the question,
the score and the running flag all keep their values. -/
theorem enter_incorrect_leaves_state (s : LoopState) (o : NetOracle)
    (h : o.is_correct = false) :
    handle_event s (.keydown .k_return) o = s := by
  simp [handle_event, h]

/-- Witness for C3: an incorrect answer at the concrete state `sA` changes
nothing. -/
theorem enter_incorrect_leaves_state_witness :
    (NetOracle.mk false qB).is_correct = false ∧
    handle_event sA (.keydown .k_return) ⟨false, qB⟩ = sA :=
  ⟨rfl, enter_incorrect_leaves_state sA ⟨false, qB⟩ rfl⟩

/-- Claim C4: for an in-bounds selection, the down key moves the selection to
`(s + 1) mod len(choices)`, the up key to `(s - 1) mod len(choices)`, and in
particular up from index 0 wraps to the last index `len(choices) - 1`. -/
theorem arrow_keys_move_selection_mod (s : LoopState) (o : NetOracle)
    (h0 : 0 ≤ s.selected_option)
    (h1 : s.selected_option < (s.question.choices.length : Int)) :
    (handle_event s (.keydown .k_down) o).selected_option =
      (s.selected_option + 1) % (s.question.choices.length : Int) ∧
    (handle_event s (.keydown .k_up) o).selected_option =
      (s.selected_option - 1) % (s.question.choices.length : Int) ∧
    (s.selected_option = 0 →
      (handle_event s (.keydown .k_up) o).selected_option =
        (s.question.choices.length : Int) - 1) := by
  refine ⟨by simp [handle_event], by simp [handle_event], ?_⟩
  intro hz
  have hn : (0 : Int) < (s.question.choices.length : Int) :=
    lt_of_le_of_lt h0 h1
  have h2 : (-1 : Int) % (s.question.choices.length : Int) =
      (s.question.choices.length : Int) - 1 := by
    have h3 : (-1 : Int) =
        ((s.question.choices.length : Int) - 1) +
          (s.question.choices.length : Int) * (-1) := by ring
    rw [h3, Int.add_mul_emod_self_left,
      Int.emod_eq_of_lt (by omega) (by omega)]
  simp [handle_event, hz, h2]

/-- Witness for C4 at the concrete state `sA` (selection 0 of 3 choices):
down moves to 1, up wraps to 2 = 3 - 1. -/
theorem arrow_keys_move_selection_mod_witness :
    ((0 : Int) ≤ sA.selected_option ∧
      sA.selected_option < (sA.question.choices.length : Int)) ∧
    (handle_event sA (.keydown .k_down) ⟨true, qB⟩).selected_option =
      (sA.selected_option + 1) % (sA.question.choices.length : Int) ∧
    (handle_event sA (.keydown .k_up) ⟨true, qB⟩).selected_option =
      (sA.question.choices.length : Int) - 1 := by
  have h := arrow_keys_move_selection_mod sA ⟨true, qB⟩ (by decide) (by decide)
  exact ⟨⟨by decide, by decide⟩, h.1, h.2.2 (by decide)⟩

lemma handle_event_down_eq (s : LoopState) (o : NetOracle) :
    handle_event s (.keydown .k_down) o =
      { s with selected_option :=
          (s.selected_option + 1) % (s.question.choices.length : Int) } := by
  simp [handle_event]

lemma handle_event_up_eq (s : LoopState) (o : NetOracle) :
    handle_event s (.keydown .k_up) o =
      { s with selected_option :=
          (s.selected_option - 1) % (s.question.choices.length : Int) } := by
  simp [handle_event]

lemma iterate_down_eq (o : NetOracle) (s : LoopState)
    (h0 : 0 ≤ s.selected_option)
    (h1 : s.selected_option < (s.question.choices.length : Int)) :
    ∀ k : Nat, (fun st => handle_event st (.keydown .k_down) o)^[k] s =
      { s with selected_option :=
          (s.selected_option + k) % (s.question.choices.length : Int) } := by
  intro k
  induction k with
  | zero =>
    simp only [Function.iterate_zero, id_eq, Nat.cast_zero, add_zero]
    rw [Int.emod_eq_of_lt h0 h1]
  | succ k ih =>
    rw [Function.iterate_succ_apply', ih, handle_event_down_eq]
    simp only [LoopState.mk.injEq, and_true, true_and]
    rw [Int.emod_add_emod]
    push_cast
    ring_nf

lemma iterate_up_eq (o : NetOracle) (s : LoopState)
    (h0 : 0 ≤ s.selected_option)
    (h1 : s.selected_option < (s.question.choices.length : Int)) :
    ∀ k : Nat, (fun st => handle_event st (.keydown .k_up) o)^[k] s =
      { s with selected_option :=
          (s.selected_option - k) % (s.question.choices.length : Int) } := by
  intro k
  induction k with
  | zero =>
    simp only [Function.iterate_zero, id_eq, Nat.cast_zero, sub_zero]
    rw [Int.emod_eq_of_lt h0 h1]
  | succ k ih =>
    rw [Function.iterate_succ_apply', ih, handle_event_up_eq]
    simp only [LoopState.mk.injEq, and_true, true_and]
    rw [sub_eq_add_neg, Int.emod_add_emod]
    push_cast
    ring_nf

/-- Claim C5: for a question with N ≥ 1 choices and an in-bounds selection,
pressing down N times returns the loop state to where it started, pressing up
N times does too, and down-then-up (or up-then-down) is the identity. -/
theorem selection_moves_cyclic (s : LoopState) (o : NetOracle)
    (h0 : 0 ≤ s.selected_option)
    (h1 : s.selected_option < (s.question.choices.length : Int)) :
    (fun st => handle_event st (.keydown .k_down) o)^[s.question.choices.length] s
      = s ∧
    (fun st => handle_event st (.keydown .k_up) o)^[s.question.choices.length] s
      = s ∧
    handle_event (handle_event s (.keydown .k_down) o) (.keydown .k_up) o = s ∧
    handle_event (handle_event s (.keydown .k_up) o) (.keydown .k_down) o = s := by
  have hsel : s.selected_option % (s.question.choices.length : Int) =
      s.selected_option := Int.emod_eq_of_lt h0 h1
  refine ⟨?_, ?_, ?_, ?_⟩
  · rw [iterate_down_eq o s h0 h1]
    have h2 : (s.selected_option + (s.question.choices.length : Int))
        % (s.question.choices.length : Int) = s.selected_option := by
      have h3 : s.selected_option + (s.question.choices.length : Int) =
          s.selected_option + (s.question.choices.length : Int) * 1 := by ring
      rw [h3, Int.add_mul_emod_self_left, hsel]
    rw [h2]
  · rw [iterate_up_eq o s h0 h1]
    have h2 : (s.selected_option - (s.question.choices.length : Int))
        % (s.question.choices.length : Int) = s.selected_option := by
      have h3 : s.selected_option - (s.question.choices.length : Int) =
          s.selected_option + (s.question.choices.length : Int) * (-1) := by ring
      rw [h3, Int.add_mul_emod_self_left, hsel]
    rw [h2]
  · rw [handle_event_down_eq, handle_event_up_eq]
    simp only
    have h2 : ((s.selected_option + 1) % (s.question.choices.length : Int) - 1)
        % (s.question.choices.length : Int) = s.selected_option := by
      rw [sub_eq_add_neg, Int.emod_add_emod]
      have h3 : s.selected_option + 1 + -1 = s.selected_option := by ring
      rw [h3, hsel]
    rw [h2]
  · rw [handle_event_up_eq, handle_event_down_eq]
    simp only
    have h2 : ((s.selected_option - 1) % (s.question.choices.length : Int) + 1)
        % (s.question.choices.length : Int) = s.selected_option := by
      rw [Int.emod_add_emod]
      have h3 : s.selected_option - 1 + 1 = s.selected_option := by ring
      rw [h3, hsel]
    rw [h2]

/-- Witness for C5 at the concrete state `sA` (3 choices, selection 0). -/
theorem selection_moves_cyclic_witness :
    (fun st => handle_event st (.keydown .k_down) (⟨true, qB⟩ : NetOracle))^[3] sA
      = sA ∧
    handle_event (handle_event sA (.keydown .k_up) ⟨true, qB⟩)
      (.keydown .k_down) ⟨true, qB⟩ = sA := by
  have h := selection_moves_cyclic sA ⟨true, qB⟩ (by decide) (by decide)
  exact ⟨h.1, h.2.2.2⟩

lemma handle_event_running_eq (s : LoopState) (e : GameEvent) (o : NetOracle) :
    (handle_event s e o).game_running = false ↔
      (s.game_running = false ∨ e = .quit ∨ e = .keydown .k_q) := by
  cases e with
  | quit => simp [handle_event]
  | keydown k =>
    cases k <;> by_cases hc : o.is_correct <;> simp [handle_event, hc]

lemma run_events_running_false (es : List (GameEvent × NetOracle)) :
    ∀ s : LoopState, s.game_running = false →
      (run_events s es).game_running = false := by
  induction es with
  | nil => intro s h; exact h
  | cons p es ih =>
    intro s h
    exact ih _ ((handle_event_running_eq s p.1 p.2).mpr (Or.inl h))

/-- Claim C6: the only events that clear the running flag are the window-close
event and the `q` key (so the loop leaves `Running` only on a quit command),
a cleared flag is never set back (GameOver is terminal over any further event
sequence), and once the loop exits, `main` runs the end screen and exits the
process after a fixed 3000 ms delay. -/
theorem quit_is_sole_exit (s : LoopState) (e : GameEvent) (o : NetOracle) :
    ((handle_event s e o).game_running = false ↔
      (s.game_running = false ∨ e = .quit ∨ e = .keydown .k_q)) ∧
    (∀ es : List (GameEvent × NetOracle), s.game_running = false →
      (run_events s es).game_running = false) ∧
    (end_sequence s.score =
      [.draw_game_over, .draw_score s.score, .display_flip, .wait_ms 3000,
       .pygame_quit, .sys_exit]) :=
  ⟨handle_event_running_eq s e o,
   fun es h => run_events_running_false es s h,
   rfl⟩

/-- Witness for C6: at a concrete stopped state, further events never restart
the loop, and the down key alone does not stop a running loop. -/
theorem quit_is_sole_exit_witness :
    ((handle_event sA .quit ⟨true, qB⟩).game_running = false ↔
      (sA.game_running = false ∨ (.quit : GameEvent) = .quit ∨
        (.quit : GameEvent) = .keydown .k_q)) ∧
    (run_events { sA with game_running := false }
        [(.keydown .k_down, ⟨true, qB⟩)]).game_running = false := by
  refine ⟨(quit_is_sole_exit sA .quit ⟨true, qB⟩).1, ?_⟩
  exact (quit_is_sole_exit { sA with game_running := false } .quit
    ⟨true, qB⟩).2.1 [(.keydown .k_down, ⟨true, qB⟩)] rfl

lemma handle_event_score_eq (s : LoopState) (e : GameEvent) (o : NetOracle) :
    (handle_event s e o).score = s.score := by
  cases e with
  | quit => simp [handle_event]
  | keydown k =>
    cases k <;> by_cases hc : o.is_correct <;> simp [handle_event, hc]

lemma run_events_score_eq (es : List (GameEvent × NetOracle)) :
    ∀ s : LoopState, (run_events s es).score = s.score := by
  induction es with
  | nil => intro s; rfl
  | cons p es ih =>
    intro s
    rw [show run_events s (p :: es) = run_events (handle_event s p.1 p.2) es
      from rfl, ih, handle_event_score_eq]

/-- Claim C7: no event handler ever changes the score, so along every event
sequence from the initial state the score stays 0, and the end screen
therefore displays score 0. -/
theorem score_never_incremented :
    (∀ (s : LoopState) (e : GameEvent) (o : NetOracle),
      (handle_event s e o).score = s.score) ∧
    (∀ (q0 : MultipleChoiceQuestion) (es : List (GameEvent × NetOracle)),
      (run_events (init_state q0) es).score = 0) ∧
    (∀ (q0 : MultipleChoiceQuestion) (es : List (GameEvent × NetOracle)),
      end_sequence (run_events (init_state q0) es).score = end_sequence 0) := by
  refine ⟨handle_event_score_eq, fun q0 es => run_events_score_eq es _, ?_⟩
  intro q0 es
  rw [run_events_score_eq es _]
  rfl

lemma handle_event_preserves_valid (s : LoopState) (e : GameEvent)
    (o : NetOracle) (hs : valid_selection s)
    (ho : o.next_question.choices ≠ []) :
    valid_selection (handle_event s e o) := by
  obtain ⟨hs0, hs1⟩ := hs
  have hn : (0 : Int) < (s.question.choices.length : Int) :=
    lt_of_le_of_lt hs0 hs1
  have hne : (s.question.choices.length : Int) ≠ 0 := by omega
  cases e with
  | quit => exact ⟨hs0, hs1⟩
  | keydown k =>
    cases k with
    | k_q => exact ⟨hs0, hs1⟩
    | k_down =>
      rw [handle_event_down_eq]
      exact ⟨Int.emod_nonneg _ hne, Int.emod_lt_of_pos _ hn⟩
    | k_up =>
      rw [handle_event_up_eq]
      exact ⟨Int.emod_nonneg _ hne, Int.emod_lt_of_pos _ hn⟩
    | k_return =>
      by_cases hc : o.is_correct
      · have hq : 0 < o.next_question.choices.length :=
          List.length_pos.mpr ho
        have he : handle_event s (.keydown .k_return) o =
            { s with question := o.next_question, selected_option := 0 } := by
          simp [handle_event, hc]
        rw [he]
        refine ⟨le_refl 0, ?_⟩
        show (0 : Int) < (o.next_question.choices.length : Int)
        exact_mod_cast hq
      · have he : handle_event s (.keydown .k_return) o = s := by
          simp [handle_event, hc]
        rw [he]
        exact ⟨hs0, hs1⟩
    | other => exact ⟨hs0, hs1⟩

lemma run_events_preserves_valid (es : List (GameEvent × NetOracle)) :
    ∀ s : LoopState, valid_selection s →
      (∀ p ∈ es, p.2.next_question.choices ≠ []) →
      valid_selection (run_events s es) := by
  induction es with
  | nil => intro s hs _; exact hs
  | cons p es ih =>
    intro s hs hes
    exact ih _ (handle_event_preserves_valid s p.1 p.2 hs
        (hes p (List.mem_cons_self p es)))
      (fun q hq => hes q (List.mem_cons_of_mem p hq))

/-- Claim C10: provided the initial question and every question the oracle
would return have non-empty choices, the loop invariant
`0 ≤ selected_option < len(question.choices)` holds after any event
sequence from the initial state. -/
theorem selection_stays_in_bounds (q0 : MultipleChoiceQuestion)
    (hq0 : q0.choices ≠ []) (es : List (GameEvent × NetOracle))
    (hes : ∀ p ∈ es, p.2.next_question.choices ≠ []) :
    valid_selection (run_events (init_state q0) es) := by
  apply run_events_preserves_valid es _ _ hes
  refine ⟨le_refl 0, ?_⟩
  show (0 : Int) < (q0.choices.length : Int)
  have hq : 0 < q0.choices.length := List.length_pos.mpr hq0
  exact_mod_cast hq

/-- Witness for C10: a concrete two-step trace (down, then a correct answer
replacing the question) keeps the selection in bounds. -/
theorem selection_stays_in_bounds_witness :
    qA.choices ≠ [] ∧
    (∀ p ∈ [((.keydown .k_down : GameEvent), (⟨true, qB⟩ : NetOracle)),
            (.keydown .k_return, ⟨true, qB⟩)],
      p.2.next_question.choices ≠ []) ∧
    valid_selection (run_events (init_state qA)
      [(.keydown .k_down, ⟨true, qB⟩), (.keydown .k_return, ⟨true, qB⟩)]) := by
  refine ⟨by decide, by decide, ?_⟩
  exact selection_stays_in_bounds qA (by decide) _ (by decide)

/-- A question sharing `qA`'s id but with different text, choices and
`answer_index`, to exhibit that `check_answer` ignores those fields. -/
def qA_variant : MultipleChoiceQuestion :=
  { question_id := "11111111-aaaa-bbbb-cccc-000000000001"
    question_text := "Completely different text"
    answer_index := 2
    choices := ["x", "y", "z", "w"] }

/-- A server answering every request with 200 and `is_correct: true`. -/
def server_ok : String → HttpResponse :=
  fun _ => ⟨200, .jobj [("is_correct", .jbool true)]⟩

/-- Claim C9: `check_answer` does no local comparison with `answer_index`:
two questions with the same id produce the same request URL and, against the
same server, the same result; and on a 200 response the result is exactly the
server-reported `is_correct` value. -/
theorem check_answer_is_server_reported (q1 q2 : MultipleChoiceQuestion)
    (sel : Int) (server : String → HttpResponse)
    (hid : q1.question_id = q2.question_id) :
    check_answer_url q1 sel = check_answer_url q2 sel ∧
    check_answer q1 sel server = check_answer q2 sel server ∧
    (∀ (fs : List (String × JValue)) (v : JValue),
      (server (check_answer_url q1 sel)).status_code = 200 →
      (server (check_answer_url q1 sel)).body = .jobj fs →
      dict_get fs "is_correct" = some v →
      check_answer q1 sel server = .ok v) := by
  have hurl : check_answer_url q1 sel = check_answer_url q2 sel := by
    unfold check_answer_url
    rw [hid]
  refine ⟨hurl, ?_, ?_⟩
  · unfold check_answer
    rw [hurl]
  · intro fs v h200 hbody hget
    simp [check_answer, h200, hbody, hget]

/-- Witness for C9: `qA` and `qA_variant` share an id and get the identical
answer from a concrete 200-server, namely its `is_correct` value. -/
theorem check_answer_is_server_reported_witness :
    qA.question_id = qA_variant.question_id ∧
    check_answer qA 1 server_ok = check_answer qA_variant 1 server_ok ∧
    check_answer qA 1 server_ok = .ok (.jbool true) := by
  have h := check_answer_is_server_reported qA qA_variant 1 server_ok rfl
  exact ⟨rfl, h.2.1,
    h.2.2 [("is_correct", .jbool true)] (.jbool true) rfl rfl rfl⟩

/-- A server answering every request with 404 and a body that still carries a
`message` field the code never reads. -/
def server_404 : String → HttpResponse :=
  fun _ => ⟨404, .jobj [("message", .jstr "not found")]⟩

/-- A server answering every request with 400 and a bad-request message. -/
def server_400 : String → HttpResponse :=
  fun _ => ⟨400, .jobj [("message", .jstr "no questions available")]⟩

/-- A second 404-server with a different body message, to show the raised
error is independent of the body. -/
def server_404b : String → HttpResponse :=
  fun _ => ⟨404, .jobj [("message", .jstr "a different body message")]⟩

/-- Counterexample to C2 as stated: 404 is a client-error (4xx) status, yet
`fetch_random_question` raises the same fixed generic connectivity message
whatever the body's `message` field says, so the error does not carry the
server-provided message; moreover even at 400 the raised message is not the
server message unmodified but carries a "Bad request: " marker in front. -/
theorem client_error_message_counterexample :
    fetch_random_question server_404 = .error (.gameException unreachable_msg) ∧
    fetch_random_question server_404b =
      .error (.gameException unreachable_msg) ∧
    unreachable_msg ≠ "not found" ∧
    unreachable_msg ≠ "a different body message" ∧
    fetch_random_question server_400 =
      .error (.gameException "Bad request: no questions available") ∧
    "Bad request: no questions available" ≠ "no questions available" := by
  exact ⟨rfl, rfl, by decide, by decide, rfl, by decide⟩

/-- Amended C2: for both client operations, exactly the status 400 raises the
server-provided message, embedded as `"Bad request: " ++ message`; every
other non-200 status raises the fixed generic connectivity message and never
the response body. -/
theorem client_error_status_mapping (server : String → HttpResponse)
    (q : MultipleChoiceQuestion) (sel : Int) (fs : List (String × JValue))
    (m : String) :
    ((server (API_BASE_URL ++ "/random-question")).status_code = 400 →
      (server (API_BASE_URL ++ "/random-question")).body = .jobj fs →
      dict_get fs "message" = some (.jstr m) →
      fetch_random_question server =
        .error (.gameException ("Bad request: " ++ m))) ∧
    ((server (API_BASE_URL ++ "/random-question")).status_code ≠ 200 →
      (server (API_BASE_URL ++ "/random-question")).status_code ≠ 400 →
      fetch_random_question server =
        .error (.gameException unreachable_msg)) ∧
    ((server (check_answer_url q sel)).status_code = 400 →
      (server (check_answer_url q sel)).body = .jobj fs →
      dict_get fs "message" = some (.jstr m) →
      check_answer q sel server =
        .error (.gameException ("Bad request: " ++ m))) ∧
    ((server (check_answer_url q sel)).status_code ≠ 200 →
      (server (check_answer_url q sel)).status_code ≠ 400 →
      check_answer q sel server =
        .error (.gameException unreachable_msg)) := by
  refine ⟨?_, ?_, ?_, ?_⟩
  · intro h400 hbody hmsg
    simp [fetch_random_question, error_branch, h400, hbody, hmsg, jvalue_str]
  · intro h200 h400
    simp [fetch_random_question, error_branch, h200, h400]
  · intro h400 hbody hmsg
    simp [check_answer, error_branch, h400, hbody, hmsg, jvalue_str]
  · intro h200 h400
    simp [check_answer, error_branch, h200, h400]

/-- Witness for the amended C2, at the concrete 400- and 404-servers, for
both client operations. -/
theorem client_error_status_mapping_witness :
    fetch_random_question server_400 =
      .error (.gameException ("Bad request: " ++ "no questions available")) ∧
    fetch_random_question server_404 =
      .error (.gameException unreachable_msg) ∧
    check_answer qA 1 server_400 =
      .error (.gameException ("Bad request: " ++ "no questions available")) ∧
    check_answer qA 1 server_404 =
      .error (.gameException unreachable_msg) := by
  refine ⟨?_, ?_, ?_, ?_⟩
  · exact (client_error_status_mapping server_400 qA 1
      [("message", .jstr "no questions available")] "no questions available").1
      rfl rfl rfl
  · exact (client_error_status_mapping server_404 qA 1 [] "").2.1
      (by decide) (by decide)
  · exact (client_error_status_mapping server_400 qA 1
      [("message", .jstr "no questions available")]
      "no questions available").2.2.1 rfl rfl rfl
  · exact (client_error_status_mapping server_404 qA 1 [] "").2.2.2
      (by decide) (by decide)

lemma foldl_bind_one_none (m : List (String × JValue)) :
    m.foldl bind_one none = none := by
  induction m with
  | nil => rfl
  | cons kv m ih => exact ih

lemma bind_one_fields (acc acc1 : BindAcc) (kv : String × JValue)
    (hb : bind_one (some acc) kv = some acc1) :
    (kv.1 ≠ "question_id" → acc1.qid = acc.qid) ∧
    (kv.1 ≠ "question_text" → acc1.qtext = acc.qtext) ∧
    (kv.1 ≠ "answer_index" → acc1.aidx = acc.aidx) ∧
    (kv.1 ≠ "choices" → acc1.chs = acc.chs) := by
  simp only [bind_one] at hb
  by_cases h1 : kv.1 = "question_id"
  · rw [if_pos h1] at hb
    cases hf : acc.qid with
    | none =>
      rw [hf] at hb
      injection hb with hb
      subst hb
      exact ⟨fun hn => absurd h1 hn, fun _ => rfl, fun _ => rfl, fun _ => rfl⟩
    | some v => rw [hf] at hb; cases hb
  · rw [if_neg h1] at hb
    by_cases h2 : kv.1 = "question_text"
    · rw [if_pos h2] at hb
      cases hf : acc.qtext with
      | none =>
        rw [hf] at hb
        injection hb with hb
        subst hb
        exact ⟨fun _ => rfl, fun hn => absurd h2 hn, fun _ => rfl, fun _ => rfl⟩
      | some v => rw [hf] at hb; cases hb
    · rw [if_neg h2] at hb
      by_cases h3 : kv.1 = "answer_index"
      · rw [if_pos h3] at hb
        cases hf : acc.aidx with
        | none =>
          rw [hf] at hb
          injection hb with hb
          subst hb
          exact ⟨fun _ => rfl, fun _ => rfl, fun hn => absurd h3 hn,
            fun _ => rfl⟩
        | some v => rw [hf] at hb; cases hb
      · rw [if_neg h3] at hb
        by_cases h4 : kv.1 = "choices"
        · rw [if_pos h4] at hb
          cases hf : acc.chs with
          | none =>
            rw [hf] at hb
            injection hb with hb
            subst hb
            exact ⟨fun _ => rfl, fun _ => rfl, fun _ => rfl,
              fun hn => absurd h4 hn⟩
          | some v => rw [hf] at hb; cases hb
        · rw [if_neg h4] at hb
          cases hb

lemma foldl_bind_absent (proj : BindAcc → Option JValue) (key : String)
    (hproj : ∀ (acc acc1 : BindAcc) (kv : String × JValue), kv.1 ≠ key →
      bind_one (some acc) kv = some acc1 → proj acc1 = proj acc) :
    ∀ (m : List (String × JValue)) (acc acc1 : BindAcc),
      key ∉ m.map Prod.fst → m.foldl bind_one (some acc) = some acc1 →
      proj acc1 = proj acc := by
  intro m
  induction m with
  | nil =>
    intro acc acc1 _ h
    cases h
    rfl
  | cons kv m ih =>
    intro acc acc1 hk h
    have hk1 : kv.1 ≠ key := by
      intro he
      exact hk (by simp [he])
    have hk2 : key ∉ m.map Prod.fst := by
      intro hm
      exact hk (by simp [hm])
    cases hb : bind_one (some acc) kv with
    | none =>
      rw [List.foldl_cons, hb, foldl_bind_one_none] at h
      cases h
    | some acc2 =>
      rw [List.foldl_cons, hb] at h
      rw [ih acc2 acc1 hk2 h, hproj acc acc2 kv hk1 hb]

/-- The mapping of a concrete well-shaped server body: all four required
keys present, values of the documented shapes. -/
def good_mapping : List (String × JValue) :=
  [("question_id", .jstr "11111111-aaaa-bbbb-cccc-000000000001"),
   ("question_text", .jstr "What is 2+2?"),
   ("answer_index", .jnum 1),
   ("choices", .jarr [.jstr "3", .jstr "4", .jstr "5"])]

/-- A mapping with all four required keys but wrong-shaped values: the
answer index is a string and the choices are a number. -/
def bad_shape_mapping : List (String × JValue) :=
  [("question_id", .jstr "q-1"),
   ("question_text", .jstr "2+2?"),
   ("answer_index", .jstr "not an index"),
   ("choices", .jnum 4)]

/-- Counterexample to C8 as stated: a mapping whose `answer_index` and
`choices` are of the wrong shape is accepted by the construction, which
simply stores the wrong-shaped values; no error of any kind is raised. -/
theorem malformed_question_counterexample :
    mcq_from_mapping bad_shape_mapping =
      some ⟨.jstr "q-1", .jstr "2+2?", .jstr "not an index", .jnum 4⟩ := rfl

/-- Amended C8: construction from a server-supplied mapping fails whenever
one of the required keyword names `question_id`, `question_text`,
`answer_index`, `choices` is absent — though with Python's generic
argument-binding `TypeError`, not a distinct MalformedQuestion error kind —
while the bound values themselves are stored entirely unvalidated, so
wrong-shaped values are accepted. -/
theorem question_construction_requires_fields (m : List (String × JValue)) :
    ((∃ r ∈ ["question_id", "question_text", "answer_index", "choices"],
        r ∉ m.map Prod.fst) → mcq_from_mapping m = none) ∧
    (∀ a b c d : JValue,
      mcq_from_mapping
        [("question_id", a), ("question_text", b),
         ("answer_index", c), ("choices", d)] = some ⟨a, b, c, d⟩) := by
  constructor
  · rintro ⟨r, hr, hnotin⟩
    unfold mcq_from_mapping
    cases hf : m.foldl bind_one (some ⟨none, none, none, none⟩) with
    | none => rfl
    | some acc1 =>
      obtain ⟨q1, q2, q3, q4⟩ := acc1
      simp only [List.mem_cons, List.not_mem_nil, or_false] at hr
      rcases hr with h | h | h | h
      · have := foldl_bind_absent (fun a => a.qid) r
          (fun acc acc1 kv hk hb =>
            (bind_one_fields acc acc1 kv hb).1 (h ▸ hk))
          m _ _ hnotin hf
        simp only at this
        rw [this]
      · have := foldl_bind_absent (fun a => a.qtext) r
          (fun acc acc1 kv hk hb =>
            (bind_one_fields acc acc1 kv hb).2.1 (h ▸ hk))
          m _ _ hnotin hf
        simp only at this
        rw [this]
        cases q1 <;> rfl
      · have := foldl_bind_absent (fun a => a.aidx) r
          (fun acc acc1 kv hk hb =>
            (bind_one_fields acc acc1 kv hb).2.2.1 (h ▸ hk))
          m _ _ hnotin hf
        simp only at this
        rw [this]
        cases q1 <;> cases q2 <;> rfl
      · have := foldl_bind_absent (fun a => a.chs) r
          (fun acc acc1 kv hk hb =>
            (bind_one_fields acc acc1 kv hb).2.2.2 (h ▸ hk))
          m _ _ hnotin hf
        simp only at this
        rw [this]
        cases q1 <;> cases q2 <;> cases q3 <;> rfl
  · intro a b c d
    rfl

/-- Witness for the amended C8: a mapping missing `choices` is rejected,
and a complete well-shaped mapping is accepted with its values stored. -/
theorem question_construction_requires_fields_witness :
    (∃ r ∈ ["question_id", "question_text", "answer_index", "choices"],
      r ∉ ([("question_id", JValue.jstr "x")].map Prod.fst)) ∧
    mcq_from_mapping [("question_id", JValue.jstr "x")] = none ∧
    mcq_from_mapping good_mapping =
      some ⟨.jstr "11111111-aaaa-bbbb-cccc-000000000001",
        .jstr "What is 2+2?", .jnum 1,
        .jarr [.jstr "3", .jstr "4", .jstr "5"]⟩ := by
  refine ⟨⟨"choices", by decide, by decide⟩, ?_, ?_⟩
  · exact (question_construction_requires_fields
      [("question_id", JValue.jstr "x")]).1 ⟨"choices", by decide, by decide⟩
  · exact (question_construction_requires_fields good_mapping).2
      (.jstr "11111111-aaaa-bbbb-cccc-000000000001") (.jstr "What is 2+2?")
      (.jnum 1) (.jarr [.jstr "3", .jstr "4", .jstr "5"])

end QuizGame
